import Mathlib

/-!
Shallow embedding of `log/handler/rotating.go` from the `go-tools`
repository: a time-based (`TimedRotatingFile`) and a size-based
(`RotatingFile`) rotating log-file writer.

The filesystem is modelled as a single directory: an association list
from file names to byte contents (bytes as `Nat`).  Failure-injection
fields record which operations the environment makes fail, so that
error-propagation claims can be stated.  Wall-clock time is passed in
explicitly as a `Clock` (the components `time.Now()` would return);
the Go `time.Unix(..).Format(DAY_FMT)` date formatter is passed in as
an explicit function `fmtDay`.  Writers are pure state-passing
translations of the Go methods: each method takes the ambient package
state (`PermState`), the filesystem and the receiver, and returns the
updated filesystem and receiver, or an error / panic outcome.
-/

namespace handler

/-- Byte string: the contents of a file. -/
abbrev Content := List Nat

/-- The files of the (single) log directory, as name-content pairs. -/
abbrev Files := List (String × Content)

/-- Look a file up by name. -/
def fsFind : Files → String → Option Content
  | [], _ => none
  | (n, c) :: t, m => if m = n then some c else fsFind t m

/-- Drop the entry named `n` (no-op when absent). -/
def fsErase (l : Files) (n : String) : Files :=
  l.filter (fun p => p.1 != n)

/-- Set the entry named `n` to content `c`, replacing any previous entry. -/
def fsSet (l : Files) (n : String) (c : Content) : Files :=
  (n, c) :: fsErase l n

/-- Errors of the modelled OS calls, plus the handler's own error
`ErrFileNotOpen` (source line 43) as `notOpen` and the error a closed
file handle reports as `handleClosed`. -/
inductive FsErr where
  | notOpen
  | handleClosed
  | removeFail (path : String)
  | renameFail (path : String)
  | openFail (path : String)
  | listFail
deriving DecidableEq

/-- Outcome of running a handler method: a value, a Go error value, or a
runtime panic (nil dereference / constructor panic). -/
inductive Res (α : Type) where
  | ok (a : α)
  | err (e : FsErr)
  | panicked
deriving DecidableEq

/-- Whether a run produced a value (the Go call returned `err == nil`). -/
def Res.isOk {α : Type} : Res α → Bool
  | .ok _ => true
  | _ => false

/-- The modelled filesystem: the directory's files, a log of the
permission bits passed to each file creation, and failure-injection
fields telling which OS calls the environment makes fail. -/
structure FS where
  files : Files
  perms : List (String × Nat)
  failRemove : List String
  failRename : List String
  failOpen : Bool
  failListDir : Bool
deriving DecidableEq

/-- Model of `os.Remove`: fails on injected failure or on a missing
file; otherwise drops the entry. -/
def osRemove (fs : FS) (name : String) : Except FsErr FS :=
  if name ∈ fs.failRemove then .error (.removeFail name)
  else
    match fsFind fs.files name with
    | none => .error (.removeFail name)
    | some _ => .ok { fs with files := fsErase fs.files name }

/-- Model of `os.Rename`: fails on injected failure or a missing
source; otherwise moves the content, overwriting the destination. -/
def osRename (fs : FS) (src dst : String) : Except FsErr FS :=
  if src ∈ fs.failRename then .error (.renameFail src)
  else
    match fsFind fs.files src with
    | none => .error (.renameFail src)
    | some c => .ok { fs with files := fsSet (fsErase fs.files src) dst c }

/-- Model of `os.OpenFile` with `O_APPEND|O_CREATE|O_WRONLY`: fails on
injected failure; otherwise opens the existing file (returning its
size) or creates an empty one, recording the permission bits used. -/
def osOpenFile (fs : FS) (name : String) (perm : Nat) : Except FsErr (FS × Nat) :=
  if fs.failOpen then .error (.openFail name)
  else
    match fsFind fs.files name with
    | some c => .ok (fs, c.length)
    | none => .ok ({ fs with files := fsSet fs.files name [],
                             perms := (name, perm) :: fs.perms }, 0)

/-- Run `os.Remove` discarding its error, as the source does at lines
147 and 158 (`os.Remove(..)` with the result ignored). -/
def removeIgnore (fs : FS) (name : String) : FS :=
  match osRemove fs name with
  | .ok fs' => fs'
  | .error _ => fs

/-- The byte-append an open handle's `Write` performs on the file it
was opened on. -/
def fsAppend (fs : FS) (name : String) (data : Content) : FS :=
  match fsFind fs.files name with
  | some c => { fs with files := fsSet fs.files name (c ++ data) }
  | none => { fs with files := fsSet fs.files name data }

/-- The character of a decimal digit. -/
def digitChar (d : Nat) : Char := Char.ofNat (48 + d)

/-- Big-endian decimal digits of `n` (`[]` for `0`), with explicit
fuel so the definition is structural; `fuel ≥ n` makes it exact. -/
def decDigits : Nat → Nat → List Nat
  | 0, _ => []
  | fuel + 1, n => if n = 0 then [] else decDigits fuel (n / 10) ++ [n % 10]

/-- Decimal rendering of a natural number, as `%d` prints it. -/
def natDec (n : Nat) : String :=
  if n = 0 then "0" else String.mk ((decDigits n n).map digitChar)

/-- Decimal rendering of an integer, as `fmt.Sprintf`'s `%d` verb
prints it. -/
def intDec : Int → String
  | .ofNat n => natDec n
  | .negSucc n => "-" ++ natDec (n + 1)

/-- The value of a big-endian decimal digit list. -/
def digitsVal (l : List Nat) : Nat := l.foldl (fun acc d => acc * 10 + d) 0

end handler

namespace file

/-- Modelled from the spec: `file.IsExist`, the collaborator predicate
"does path exist", evaluated on the modelled directory. -/
def IsExist (fs : handler.FS) (name : String) : Bool :=
  (handler.fsFind fs.files name).isSome

/-- Modelled from the spec: `file.IsFile`, the collaborator predicate
"is path a regular file"; every entry of the modelled directory is a
regular file, so it agrees with existence. -/
def IsFile (fs : handler.FS) (name : String) : Bool :=
  (handler.fsFind fs.files name).isSome

/-- Modelled from the spec: `file.ListDir`, the collaborator "list
directory entries (returns plain filenames, not full paths)"; fails
when the environment injects a listing failure. -/
def ListDir (fs : handler.FS) : Except handler.FsErr (List String) :=
  if fs.failListDir then .error .listFail else .ok (fs.files.map Prod.fst)

end file

namespace function

/-- Modelled from the spec: `function.Range`, the collaborator that
generates "a descending/ascending integer sequence for ladder
iteration".  With a negative step it counts down from `start` toward
`stop` excluding `stop`; the source's only call is
`Range(backupCount-1, 0, -1)`, i.e. `backupCount-1` down to `1`. -/
def Range (start stop step : Int) : List Int :=
  if step < 0 then (List.range (start - stop).toNat).map (fun k : Nat => start - (k : Int))
  else (List.range (stop - start).toNat).map (fun k : Nat => start + (k : Int))

end function

namespace handler

/-- FILE_PERM (source line 27): the default permission to open the log
file, `0644`. -/
def FILE_PERM : Nat := 0o644

/-- The package-level mutable state: the `filePerm` variable declared
at source line 38 with value `FILE_PERM`. -/
structure PermState where
  filePerm : Nat
deriving DecidableEq

/-- The package state at program start: `filePerm = FILE_PERM`. -/
def startPermState : PermState := ⟨FILE_PERM⟩

/-- ResetDefaultFilePerm (source lines 46-49): overwrites the package
variable `filePerm` with `perm`. -/
def ResetDefaultFilePerm (_ps : PermState) (perm : Nat) : PermState := ⟨perm⟩

/-- The `day` base unit (source line 32): `3600 * 24` seconds. -/
def day : Int := 3600 * 24

/-- The components of `time.Now()` a rotation consults: the unix
timestamp and the local hour/minute/second. -/
structure Clock where
  unix : Int
  hour : Nat
  minute : Nat
  second : Nat
deriving DecidableEq

/-- TimedRotatingFile (source lines 54-64).  The handle `w` is
`io.WriteCloser`, nil-able, so it is an `Option`; `when` always holds
`day` and only selects the date format, which the embedding abstracts
into the explicit `fmtDay` parameter of `doRollover`, and `extRE` is
always the package's `dayRE`, embedded as `dayREMatch` below, so
neither is carried as a field. -/
structure TimedRotatingFile where
  w : Option Unit
  filename : String
  backupCount : Int
  interval : Int
  rotatorAt : Int
deriving DecidableEq

/-- shouldRollover (source lines 116-118): `time.Now().Unix() >= t.rotatorAt`. -/
def TimedRotatingFile.shouldRollover (t : TimedRotatingFile) (clk : Clock) : Bool :=
  t.rotatorAt ≤ clk.unix

/-- Close (source lines 120-128): `t.w.Close()` is a method call on a
nil interface when `t.w` is nil, which panics; on success the handle
is cleared.  The wrapped file's own close is modelled as succeeding. -/
def TimedRotatingFile.Close (t : TimedRotatingFile) : Res TimedRotatingFile :=
  match t.w with
  | none => .panicked
  | some _ => .ok { t with w := none }

/-- open (source lines 130-137): `os.OpenFile(t.filename, FILE_MODE,
FILE_PERM)`; note the source passes the constant `FILE_PERM`, not the
package variable `filePerm`, so the `PermState` argument is unused. -/
def TimedRotatingFile.openFile (t : TimedRotatingFile) (_ps : PermState) (fs : FS) :
    Res (FS × TimedRotatingFile) :=
  match osOpenFile fs t.filename FILE_PERM with
  | .error e => .err e
  | .ok (fs', _) => .ok (fs', { t with w := some () })

/-- reComputeRollover (source lines 197-207): `rotatorAt` becomes `now
+ interval - elapsedSecondsSinceLocalMidnight`. -/
def TimedRotatingFile.reComputeRollover (t : TimedRotatingFile) (clk : Clock) :
    TimedRotatingFile :=
  { t with rotatorAt :=
      clk.unix + (t.interval - (((clk.hour * 60 + clk.minute) * 60 + clk.second : Nat) : Int)) }

/-- Word character of the `\w` regexp class (ASCII, as Go's `regexp`
without unicode classes): letters, digits and underscore. -/
def isWordChar (c : Char) : Bool := c.isAlphanum || c == '_'

/-- The package regexp `dayRE` (source line 31),
`^\d{4}-\d{2}-\d{2}(\.\w+)?$`, as an executable matcher. -/
def dayREMatch (s : String) : Bool :=
  let cs := s.toList
  (match cs.take 10 with
   | [a, b, c, d, e, f, g, h, i, j] =>
     a.isDigit && b.isDigit && c.isDigit && d.isDigit && e == '-' &&
     f.isDigit && g.isDigit && h == '-' && i.isDigit && j.isDigit
   | _ => false)
  &&
  (match cs.drop 10 with
   | [] => true
   | '.' :: ws => !ws.isEmpty && ws.all isWordChar
   | _ => false)

/-- Lexicographic order on character lists, the order `sort.Strings`
uses (byte order and character order agree on ASCII names). -/
def charListLe : List Char → List Char → Bool
  | [], _ => true
  | _ :: _, [] => false
  | a :: as, b :: bs => if a < b then true else if b < a then false else charListLe as bs

/-- Insert into a sorted list of strings. -/
def insertSorted (x : String) : List String → List String
  | [] => [x]
  | y :: t => if charListLe x.toList y.toList then x :: y :: t else y :: insertSorted x t

/-- Model of `sort.Strings`: ascending lexicographic sort. -/
def sortStrings (l : List String) : List String := l.foldr insertSorted []

/-- getFilesToDelete (source lines 166-195): list the directory
(swallowing a listing failure by returning no candidates), keep names
of the form `basename.` followed by a `dayRE` match, and if more than
`backupCount` remain, return all but the newest `backupCount` in
ascending order.  The source's byte-level prefix slicing is modelled
at character level, which agrees on ASCII names. -/
def TimedRotatingFile.getFilesToDelete (t : TimedRotatingFile) (fs : FS) : List String :=
  match file.ListDir fs with
  | .error _ => []
  | .ok names =>
    let pre := (t.filename ++ ".").toList
    let plen := pre.length
    let result := names.filter
      (fun n => decide (plen < n.toList.length) && n.toList.take plen == pre &&
        dayREMatch (String.mk (n.toList.drop plen)))
    if (result.length : Int) ≤ t.backupCount then []
    else (sortStrings result).take ((result.length : Int) - t.backupCount).toNat

/-- The tail of the timed doRollover after the dated rename (source
lines 156-163): prune with `os.Remove` results ignored when
`backupCount > 0`, recompute the deadline, reopen. -/
def TimedRotatingFile.doRolloverRest (t : TimedRotatingFile) (ps : PermState) (fs : FS)
    (clk : Clock) : Res (FS × TimedRotatingFile) :=
  let fs1 := if 0 < t.backupCount then (t.getFilesToDelete fs).foldl removeIgnore fs else fs
  (t.reComputeRollover clk).openFile ps fs1

/-- The dated-rename step of the timed doRollover (source lines
150-154 followed by 156-163): rename the active file to the dated
destination when it is present (this error is checked), then prune,
recompute and reopen. -/
def TimedRotatingFile.renameStep (t : TimedRotatingFile) (ps : PermState) (fs : FS)
    (clk : Clock) (dstPath : String) : Res (FS × TimedRotatingFile) :=
  if file.IsFile fs t.filename then
    match osRename fs t.filename dstPath with
    | .error e => .err e
    | .ok fsB => t.doRolloverRest ps fsB clk
  else t.doRolloverRest ps fs clk

/-- doRollover (source lines 139-164): close the handle, compute the
dated destination from `rotatorAt - interval` (formatted by the
injected `fmtDay`, standing for `time.Unix(..).Format(DAY_FMT)`),
delete any file already there ignoring the `os.Remove` result, rename
the active file to it when present (this error is checked), prune,
recompute the deadline, reopen. -/
def TimedRotatingFile.doRollover (t : TimedRotatingFile) (ps : PermState) (fs : FS)
    (clk : Clock) (fmtDay : Int → String) : Res (FS × TimedRotatingFile) :=
  match t.Close with
  | .panicked => .panicked
  | .err e => .err e
  | .ok t1 =>
    let dstPath := t1.filename ++ ("." ++ fmtDay (t1.rotatorAt - t1.interval))
    let fsA := if file.IsExist fs dstPath then removeIgnore fs dstPath else fs
    t1.renameStep ps fsA clk dstPath

/-- Write of the timed writer (source lines 85-101): reject when the
handle is nil, rotate when the deadline has passed (propagating a
rotation failure), then delegate the byte write to the handle, which
appends to the active file. -/
def TimedRotatingFile.Write (t : TimedRotatingFile) (ps : PermState) (fs : FS)
    (clk : Clock) (fmtDay : Int → String) (data : Content) :
    Res (Nat × FS × TimedRotatingFile) :=
  match t.w with
  | none => .err .notOpen
  | some _ =>
    if t.shouldRollover clk then
      match t.doRollover ps fs clk fmtDay with
      | .panicked => .panicked
      | .err e => .err e
      | .ok (fs1, t1) => .ok (data.length, fsAppend fs1 t1.filename data, t1)
    else .ok (data.length, fsAppend fs t.filename data, t)

/-- WriteString of the timed writer (source lines 79-82): converts the
string to bytes and calls `Write`; the embedding works on the byte
content directly, so it is that call. -/
def TimedRotatingFile.WriteString (t : TimedRotatingFile) (ps : PermState) (fs : FS)
    (clk : Clock) (fmtDay : Int → String) (data : Content) :
    Res (Nat × FS × TimedRotatingFile) :=
  t.Write ps fs clk fmtDay data

/-- Modelled from the spec: the file-handle wrapper of section 4.3
(`WriteCloser`, constructed by `NewWriteCloser`, not under `src/`): "a
minimal owned resource" that tracks a closed flag and exposes
`isClosed`, "so the writer can detect and reject writes after close". -/
structure WriteCloser where
  closed : Bool
deriving DecidableEq

/-- Modelled from the spec: the wrapper's `isClosed` accessor, called
`Closed` by the source. -/
def WriteCloser.Closed (wc : WriteCloser) : Bool := wc.closed

/-- Modelled from the spec: the wrapper's `write(bytes) -> (count,
error)`: a closed handle rejects the write, an open one appends to the
file it was opened on. -/
def WriteCloser.Write (wc : WriteCloser) (fs : FS) (name : String) (data : Content) :
    Res (Nat × FS) :=
  if wc.closed then .err .handleClosed
  else .ok (data.length, fsAppend fs name data)

/-- RotatingFile (source lines 210-218); the handle `w` is a nil-able
pointer to the wrapper. -/
structure RotatingFile where
  w : Option WriteCloser
  filename : String
  maxSize : Int
  backupCount : Int
  nbytes : Int
deriving DecidableEq

/-- close (source lines 270-276): clear the handle when present (the
wrapped close is modelled as succeeding); a no-op when already nil. -/
def RotatingFile.close (r : RotatingFile) : RotatingFile := { r with w := none }

/-- Close (source lines 262-268): the locked public close. -/
def RotatingFile.Close (r : RotatingFile) : RotatingFile := r.close

/-- open (source lines 310-322): `os.OpenFile(r.filename, FILE_MODE,
FILE_PERM)` — the constant `FILE_PERM`, not the package variable —
then `nbytes` is the existing size and the handle is a fresh open
wrapper. -/
def RotatingFile.openFile (r : RotatingFile) (_ps : PermState) (fs : FS) :
    Res (FS × RotatingFile) :=
  match osOpenFile fs r.filename FILE_PERM with
  | .error e => .err e
  | .ok (fs', size) => .ok (fs', { r with nbytes := (size : Int), w := some ⟨false⟩ })

/-- The numbered backup name `fmt.Sprintf("%s.%d", base, i)`. -/
def fname (base : String) (i : Int) : String := base ++ ("." ++ intDec i)

/-- The ladder loop of the size-based doRollover (source lines
281-294): for each `i`, the source renames `base.i` to `base.(i+1)`
only when BOTH exist (the rename sits inside the `IsExist(dfn)`
branch); remove and rename errors abort the loop. -/
def shiftLadder (fs : FS) (base : String) : List Int → Except FsErr FS
  | [] => .ok fs
  | i :: rest =>
    let sfn := fname base i
    let dfn := fname base (i + 1)
    if file.IsExist fs sfn then
      if file.IsExist fs dfn then
        match osRemove fs dfn with
        | .error e => .error e
        | .ok fs1 =>
          match osRename fs1 sfn dfn with
          | .error e => .error e
          | .ok fs2 => shiftLadder fs2 base rest
      else shiftLadder fs base rest
    else shiftLadder fs base rest

/-- doRollover of the size-based writer (source lines 278-308): close
(its error is discarded by the source), and only when `backupCount >
0`: shift the ladder, delete `base.1` if present, rename the active
file to `base.1` if present (these errors are checked); finally
reopen. -/
def RotatingFile.doRollover (r : RotatingFile) (ps : PermState) (fs : FS) :
    Res (FS × RotatingFile) :=
  let r1 := r.close
  if 0 < r1.backupCount then
    match shiftLadder fs r1.filename (function.Range (r1.backupCount - 1) 0 (-1)) with
    | .error e => .err e
    | .ok fs1 =>
      let dfn := r1.filename ++ ".1"
      match (if file.IsExist fs1 dfn then osRemove fs1 dfn else .ok fs1) with
      | .error e => .err e
      | .ok fs2 =>
        match (if file.IsExist fs2 r1.filename then osRename fs2 r1.filename dfn
               else .ok fs2) with
        | .error e => .err e
        | .ok fs3 => r1.openFile ps fs3
  else r1.openFile ps fs

/-- The shared tail of `Write`: delegate the byte write to the handle
(`r.w.Write(data)`, a panic on a nil pointer) and add the count to
`nbytes`. -/
def RotatingFile.writeViaHandle (r : RotatingFile) (fs : FS) (data : Content) :
    Res (Nat × FS × RotatingFile) :=
  match r.w with
  | none => .panicked
  | some wc =>
    match wc.Write fs r.filename data with
    | .panicked => .panicked
    | .err e => .err e
    | .ok (n, fs') => .ok (n, fs', { r with nbytes := r.nbytes + (n : Int) })

/-- Write of the size-based writer (source lines 235-255): reject when
the handle is nil or closed, rotate first when `nbytes + len(data) >
maxSize` (propagating a rotation failure), then write and account. -/
def RotatingFile.Write (r : RotatingFile) (ps : PermState) (fs : FS) (data : Content) :
    Res (Nat × FS × RotatingFile) :=
  match r.w with
  | none => .err .notOpen
  | some wc =>
    if wc.Closed then .err .notOpen
    else if r.maxSize < r.nbytes + (data.length : Int) then
      match r.doRollover ps fs with
      | .panicked => .panicked
      | .err e => .err e
      | .ok (fs1, r1) => r1.writeViaHandle fs1 data
    else r.writeViaHandle fs data

/-- WriteString of the size-based writer (source lines 257-260):
`return r.w.Write([]byte(data))` — it calls the handle directly, with
no lock, no nil/closed pre-check (a nil handle is a nil-pointer
dereference), no rotation check, and no `nbytes` accounting (the
receiver is not updated, so no writer state is returned). -/
def RotatingFile.WriteString (r : RotatingFile) (_ps : PermState) (fs : FS)
    (data : Content) : Res (Nat × FS) :=
  match r.w with
  | none => .panicked
  | some wc => wc.Write fs r.filename data

/-- NewRotatingFile (source lines 221-232): construct and open,
panicking when the open fails. -/
def NewRotatingFile (ps : PermState) (fs : FS) (filename : String) (size count : Int) :
    Res (FS × RotatingFile) :=
  match RotatingFile.openFile ⟨none, filename, size, count, 0⟩ ps fs with
  | .err _ => .panicked
  | .panicked => .panicked
  | .ok (fs', r) => .ok (fs', r)

/-- An empty directory with no injected failures. -/
def fsEmpty : FS := ⟨[], [], [], [], false, false⟩

/-- The filesystem a successful size-based write run produced. -/
def sizeRunFs : Res (Nat × FS × RotatingFile) → Option FS
  | .ok (_, fs, _) => some fs
  | _ => none

/-- The filesystem a successful timed write run produced. -/
def timedRunFs : Res (Nat × FS × TimedRotatingFile) → Option FS
  | .ok (_, fs, _) => some fs
  | _ => none

/-- The creation-permission log a timed open left behind. -/
def timedOpenPerms : Res (FS × TimedRotatingFile) → Option (List (String × Nat))
  | .ok (fs, _) => some fs.perms
  | _ => none

/-- The creation-permission log a size-based open left behind. -/
def sizeOpenPerms : Res (FS × RotatingFile) → Option (List (String × Nat))
  | .ok (fs, _) => some fs.perms
  | _ => none

/-- Size-based writer for the ladder-shift scenario: three backup
slots, active file `log` and backup `log.1` on disk, `log.2` vacant. -/
def rC1 : RotatingFile := ⟨some ⟨false⟩, "log", 100, 3, 5⟩

/-- Directory for the ladder-shift scenario. -/
def fsC1 : FS := ⟨[("log", [5]), ("log.1", [7])], [], [], [], false, false⟩

/-- Chain one more oversized write onto a size-based run. -/
def sizeRunStep (x : Res (Nat × FS × RotatingFile)) (data : Content) :
    Res (Nat × FS × RotatingFile) :=
  match x with
  | .ok (_, fs, r) => r.Write startPermState fs data
  | .err e => .err e
  | .panicked => .panicked

/-- Retention scenario: `maxBytes = 3`, `backupCount = 2`, three
writes of four bytes each on an empty directory, so every write
rotates and `M = 3 > 2 = N` rotations complete. -/
def retentionRun : Res (Nat × FS × RotatingFile) :=
  sizeRunStep (sizeRunStep
    (match NewRotatingFile startPermState fsEmpty "log" 3 2 with
     | .ok (fs, r) => r.Write startPermState fs [1, 1, 1, 1]
     | .err e => .err e
     | .panicked => .panicked) [2, 2, 2, 2]) [3, 3, 3, 3]

/-- The package state after `ResetDefaultFilePerm(0o600)`. -/
def psReset : PermState := ResetDefaultFilePerm startPermState 0o600

/-- A timed writer whose target does not exist yet. -/
def tC3 : TimedRotatingFile := ⟨none, "t.log", 31, day, 0⟩

/-- A size-based writer whose target does not exist yet. -/
def rC3 : RotatingFile := ⟨none, "r.log", 10, 2, 0⟩

/-- Timed writer for the prune-failure scenarios: one retained backup,
rotation due. -/
def tC4 : TimedRotatingFile := ⟨some (), "app", 1, day, 100⟩

/-- A clock past the deadline of `tC4`. -/
def clkC4 : Clock := ⟨150, 0, 0, 30⟩

/-- The date stamp the rotation at `clkC4` would produce. -/
def fmtC4 : Int → String := fun _ => "2026-01-03"

/-- Directory for the listing-failure scenario: the listing fails. -/
def fsC4a : FS :=
  ⟨[("app", [1]), ("app.2026-01-01", [2]), ("app.2026-01-02", [3])],
   [], [], [], false, true⟩

/-- Directory for the remove-failure scenario: removing the prunable
oldest backup `app.2026-01-01` fails. -/
def fsC4b : FS :=
  ⟨[("app", [1]), ("app.2026-01-01", [2]), ("app.2026-01-02", [3])],
   [], ["app.2026-01-01"], [], false, false⟩

/-- Size-based writer with unlimited retention (`backupCount = 0`). -/
def rC5 : RotatingFile := ⟨some ⟨false⟩, "log", 100, 0, 0⟩

/-- Directory for the unlimited-retention scenario. -/
def fsC5 : FS := ⟨[("log", [7]), ("log.1", [9])], [], [], [], false, false⟩

/-- Size-based writer near its ceiling (`maxSize = 10`, 8 bytes
written), for comparing `WriteString` with `Write`. -/
def rC8 : RotatingFile := ⟨some ⟨false⟩, "log", 10, 2, 8⟩

/-- Directory matching `rC8`: the active file holds 8 bytes. -/
def fsC8 : FS := ⟨[("log", [0, 0, 0, 0, 0, 0, 0, 0])], [], [], [], false, false⟩

/-- A five-byte payload, which crosses the ceiling of `rC8`. -/
def d5 : Content := [1, 2, 3, 4, 5]

/-- Size-based writer for the trigger witness: `maxSize = 3`, one
backup slot, 2 bytes written. -/
def rW6 : RotatingFile := ⟨some ⟨false⟩, "log", 3, 1, 2⟩

/-- Directory matching `rW6`. -/
def fsW6 : FS := ⟨[("log", [9, 9])], [], [], [], false, false⟩

/-- Directory for the prune witness: empty, with the listing failing. -/
def fsC4w : FS := ⟨[], [], [], [], false, true⟩

theorem fsFind_erase (l : Files) (n m : String) :
    fsFind (fsErase l n) m = if m = n then none else fsFind l m := by
  induction l with
  | nil => simp [fsErase, fsFind]
  | cons p t ih =>
    obtain ⟨a, c⟩ := p
    by_cases han : a = n
    · have he : fsErase ((a, c) :: t) n = fsErase t n := by
        simp [fsErase, List.filter_cons, han]
      rw [he, ih]
      by_cases hmn : m = n
      · simp [hmn]
      · have hma : m ≠ a := by rw [han]; exact hmn
        simp [hmn, fsFind, hma]
    · have he : fsErase ((a, c) :: t) n = (a, c) :: fsErase t n := by
        simp [fsErase, List.filter_cons, bne_iff_ne, han]
      rw [he]
      by_cases hma : m = a
      · subst hma
        have hmn : m ≠ n := han
        simp [fsFind, hmn]
      · simp [fsFind, hma, ih]

theorem fsFind_set (l : Files) (n m : String) (c : Content) :
    fsFind (fsSet l n c) m = if m = n then some c else fsFind l m := by
  by_cases h : m = n
  · simp [fsSet, fsFind, h]
  · simp [fsSet, fsFind, h, fsFind_erase]

theorem str_append_ne (a s : String) (h : 0 < s.length) : a ++ s ≠ a := by
  intro he
  have hl := congrArg String.length he
  rw [String.length_append] at hl
  omega

theorem str_dot_append_ne (a s : String) : a ++ ("." ++ s) ≠ a := by
  apply str_append_ne
  rw [String.length_append]
  have h1 : String.length "." = 1 := rfl
  omega

theorem digitsVal_append_single (l : List Nat) (d : Nat) :
    digitsVal (l ++ [d]) = digitsVal l * 10 + d := by
  simp [digitsVal, List.foldl_append]

theorem decDigits_val (fuel n : Nat) (hf : n ≤ fuel) :
    digitsVal (decDigits fuel n) = n := by
  induction fuel generalizing n with
  | zero =>
    have h0 : n = 0 := Nat.le_zero.mp hf
    subst h0
    simp [decDigits, digitsVal]
  | succ fuel ih =>
    by_cases h0 : n = 0
    · subst h0
      simp [decDigits, digitsVal]
    · have hdiv : n / 10 ≤ fuel := by
        have := Nat.div_lt_self (Nat.pos_of_ne_zero h0) (by norm_num : 1 < 10)
        omega
      simp only [decDigits, h0, if_false, digitsVal_append_single, ih _ hdiv]
      omega

theorem decDigits_lt10 (fuel n : Nat) : ∀ d ∈ decDigits fuel n, d < 10 := by
  induction fuel generalizing n with
  | zero => simp [decDigits]
  | succ fuel ih =>
    by_cases h0 : n = 0
    · simp [decDigits, h0]
    · intro d hd
      simp only [decDigits, h0, if_false, List.mem_append, List.mem_singleton] at hd
      rcases hd with hd | hd
      · exact ih _ d hd
      · subst hd
        exact Nat.mod_lt _ (by norm_num)

theorem digitChar_toNat (d : Nat) (h : d < 10) : (digitChar d).toNat = 48 + d := by
  have hall : ∀ e < 10, (digitChar e).toNat = 48 + e := by decide
  exact hall d h

theorem digitChar_inj (a b : Nat) (ha : a < 10) (hb : b < 10)
    (h : digitChar a = digitChar b) : a = b := by
  have hn := congrArg Char.toNat h
  rw [digitChar_toNat a ha, digitChar_toNat b hb] at hn
  omega

theorem map_digitChar_inj (l1 : List Nat) : ∀ (l2 : List Nat),
    (∀ d ∈ l1, d < 10) → (∀ d ∈ l2, d < 10) →
    l1.map digitChar = l2.map digitChar → l1 = l2 := by
  induction l1 with
  | nil => intro l2 _ _ h; cases l2 <;> simp_all
  | cons a t ih =>
    intro l2 h1 h2 h
    cases l2 with
    | nil => simp_all
    | cons b t2 =>
      simp only [List.map_cons, List.cons.injEq] at h
      have ha := h1 a (List.mem_cons_self a t)
      have hb := h2 b (List.mem_cons_self b t2)
      have hab : a = b := digitChar_inj a b ha hb h.1
      have ht : t = t2 :=
        ih t2 (fun d hd => h1 d (List.mem_cons_of_mem a hd))
          (fun d hd => h2 d (List.mem_cons_of_mem b hd)) h.2
      simp [hab, ht]

theorem natDec_ne_zero_digits (b : Nat) (hb : b ≠ 0) :
    ("0" : String) ≠ String.mk ((decDigits b b).map digitChar) := by
  intro h
  have hd := congrArg String.data h
  simp only [String.mk] at hd
  cases hds : decDigits b b with
  | nil => rw [hds] at hd; simp at hd
  | cons d t =>
    rw [hds] at hd
    cases t with
    | nil =>
      simp only [List.map_cons, List.map_nil, List.cons.injEq, and_true] at hd
      have hd10 : d < 10 := decDigits_lt10 b b d (by rw [hds]; exact List.mem_cons_self d [])
      have hzero : ('0' : Char) = digitChar 0 := by decide
      have hd0 : d = 0 := by
        apply digitChar_inj d 0 hd10 (by norm_num)
        rw [← hd, hzero]
      have hv := decDigits_val b b (le_refl b)
      rw [hds, hd0] at hv
      simp [digitsVal] at hv
      exact hb hv.symm
    | cons d2 t2 => simp at hd

theorem natDec_inj (a b : Nat) (h : natDec a = natDec b) : a = b := by
  by_cases ha : a = 0 <;> by_cases hb : b = 0
  · omega
  · exfalso
    subst ha
    simp only [natDec, if_pos rfl, if_neg hb] at h
    exact natDec_ne_zero_digits b hb h
  · exfalso
    subst hb
    simp only [natDec, if_pos rfl, if_neg ha] at h
    exact natDec_ne_zero_digits a ha h.symm
  · simp only [natDec, if_neg ha, if_neg hb] at h
    have hd := congrArg String.data h
    simp only [String.mk] at hd
    have hlist := map_digitChar_inj (decDigits a a) (decDigits b b)
      (decDigits_lt10 a a) (decDigits_lt10 b b) hd
    have hva := decDigits_val a a (le_refl a)
    have hvb := decDigits_val b b (le_refl b)
    rw [← hva, ← hvb, hlist]

theorem intDec_inj_of_nonneg (a b : Int) (ha : 0 ≤ a) (hb : 0 ≤ b)
    (h : intDec a = intDec b) : a = b := by
  obtain ⟨m, rfl⟩ := Int.eq_ofNat_of_zero_le ha
  obtain ⟨n, rfl⟩ := Int.eq_ofNat_of_zero_le hb
  have hm : intDec (Int.ofNat m) = natDec m := rfl
  have hn : intDec (Int.ofNat n) = natDec n := rfl
  have := natDec_inj m n (by rw [← hm, ← hn]; exact_mod_cast h)
  exact_mod_cast this

theorem fname_ne_base (base : String) (i : Int) : fname base i ≠ base :=
  str_dot_append_ne base (intDec i)

theorem fname_step_ne (base : String) (i : Int) (hi : 1 ≤ i) :
    fname base i ≠ fname base (i + 1) := by
  intro h
  have hd := congrArg String.data h
  simp only [fname, String.data_append] at hd
  have h1 := List.append_cancel_left hd
  have h2 := List.append_cancel_left h1
  have h3 : intDec i = intDec (i + 1) := String.ext h2
  have := intDec_inj_of_nonneg i (i + 1) (by omega) (by omega) h3
  omega

theorem removeIgnore_flags (fs : FS) (n : String) :
    (removeIgnore fs n).failRemove = fs.failRemove ∧
    (removeIgnore fs n).failRename = fs.failRename ∧
    (removeIgnore fs n).failOpen = fs.failOpen := by
  by_cases hmem : n ∈ fs.failRemove
  · simp [removeIgnore, osRemove, hmem]
  · cases hf : fsFind fs.files n <;> simp [removeIgnore, osRemove, hmem, hf]

theorem foldl_removeIgnore_flags (l : List String) (fs : FS) :
    ((l.foldl removeIgnore fs).failRename = fs.failRename) ∧
    ((l.foldl removeIgnore fs).failOpen = fs.failOpen) := by
  induction l generalizing fs with
  | nil => exact ⟨rfl, rfl⟩
  | cons n t ih =>
    simp only [List.foldl_cons]
    obtain ⟨_, h2, h3⟩ := removeIgnore_flags fs n
    obtain ⟨g1, g2⟩ := ih (removeIgnore fs n)
    exact ⟨g1.trans h2, g2.trans h3⟩

theorem range_down_mem_ge_one (b : Int) :
    ∀ i ∈ function.Range (b - 1) 0 (-1), (1 : Int) ≤ i := by
  intro i hi
  unfold function.Range at hi
  rw [if_pos (by norm_num : (-1 : Int) < 0)] at hi
  obtain ⟨k, hk, hik⟩ := List.mem_map.mp hi
  have hk2 := List.mem_range.mp hk
  omega

theorem shiftLadder_ok (base : String) : ∀ (l : List Int) (fs : FS),
    fs.failRemove = [] → fs.failRename = [] → (∀ i ∈ l, (1 : Int) ≤ i) →
    ∃ fs', shiftLadder fs base l = .ok fs' ∧
      fs'.failRemove = [] ∧ fs'.failRename = [] ∧ fs'.failOpen = fs.failOpen ∧
      fsFind fs'.files base = fsFind fs.files base := by
  intro l
  induction l with
  | nil => exact fun fs hrm hrn _ => ⟨fs, rfl, hrm, hrn, rfl, rfl⟩
  | cons i rest ih =>
    intro fs hrm hrn hl
    have hi : (1 : Int) ≤ i := hl i (List.mem_cons_self i rest)
    have hrest : ∀ j ∈ rest, (1 : Int) ≤ j := fun j hj => hl j (List.mem_cons_of_mem i hj)
    cases hsE : file.IsExist fs (fname base i) with
    | false =>
      obtain ⟨fs', h1, h2, h3, h4, h5⟩ := ih fs hrm hrn hrest
      exact ⟨fs', by simp [shiftLadder, hsE, h1], h2, h3, h4, h5⟩
    | true =>
      cases hdE : file.IsExist fs (fname base (i + 1)) with
      | false =>
        obtain ⟨fs', h1, h2, h3, h4, h5⟩ := ih fs hrm hrn hrest
        exact ⟨fs', by simp [shiftLadder, hsE, hdE, h1], h2, h3, h4, h5⟩
      | true =>
        obtain ⟨c, hc⟩ : ∃ c, fsFind fs.files (fname base (i + 1)) = some c := by
          rwa [file.IsExist, Option.isSome_iff_exists] at hdE
        obtain ⟨cs, hcs⟩ : ∃ cs, fsFind fs.files (fname base i) = some cs := by
          rwa [file.IsExist, Option.isSome_iff_exists] at hsE
        have hrem : osRemove fs (fname base (i + 1)) =
            .ok { fs with files := fsErase fs.files (fname base (i + 1)) } := by
          simp [osRemove, hrm, hc]
        have hfind1 : fsFind (fsErase fs.files (fname base (i + 1))) (fname base i) =
            some cs := by
          rw [fsFind_erase, if_neg (fname_step_ne base i hi)]
          exact hcs
        have hren : osRename { fs with files := fsErase fs.files (fname base (i + 1)) }
            (fname base i) (fname base (i + 1)) =
            .ok { fs with files := fsSet (fsErase (fsErase fs.files (fname base (i + 1)))
              (fname base i)) (fname base (i + 1)) cs } := by
          simp [osRename, hrn, hfind1]
        obtain ⟨fs', h1, h2, h3, h4, h5⟩ := ih
          { fs with files := fsSet (fsErase (fsErase fs.files (fname base (i + 1)))
            (fname base i)) (fname base (i + 1)) cs } hrm hrn hrest
        refine ⟨fs', by simp [shiftLadder, hsE, hdE, hrem, hren, h1], h2, h3, h4, ?_⟩
        rw [h5]
        simp only [fsFind_set, fsFind_erase]
        rw [if_neg (Ne.symm (fname_ne_base base (i + 1))),
            if_neg (Ne.symm (fname_ne_base base i)),
            if_neg (Ne.symm (fname_ne_base base (i + 1)))]

theorem doRollover_pos (r : RotatingFile) (ps : PermState) (fs : FS) (c0 : Content)
    (hbc : 0 < r.backupCount)
    (hrm : fs.failRemove = []) (hrn : fs.failRename = []) (ho : fs.failOpen = false)
    (hact : fsFind fs.files r.filename = some c0) :
    ∃ fs', r.doRollover ps fs = .ok (fs', { r with w := some ⟨false⟩, nbytes := 0 }) ∧
      fsFind fs'.files r.filename = some [] ∧
      fsFind fs'.files (r.filename ++ ".1") = some c0 := by
  obtain ⟨fsL, hL, hLrm, hLrn, hLo, hLf⟩ :=
    shiftLadder_ok r.filename (function.Range (r.backupCount - 1) 0 (-1)) fs hrm hrn
      (range_down_mem_ge_one r.backupCount)
  have hLact : fsFind fsL.files r.filename = some c0 := hLf.trans hact
  have hne1 : r.filename ++ ".1" ≠ r.filename :=
    str_append_ne r.filename ".1" (by decide)
  -- the `.1` pre-deletion: either branch yields a filesystem fsX with the
  -- same flags and the active file untouched
  have hstep : ∃ fsX,
      (if file.IsExist fsL (r.filename ++ ".1") then osRemove fsL (r.filename ++ ".1")
       else .ok fsL) = .ok fsX ∧
      fsX.failRemove = [] ∧ fsX.failRename = [] ∧ fsX.failOpen = fs.failOpen ∧
      fsFind fsX.files r.filename = some c0 := by
    cases h1 : file.IsExist fsL (r.filename ++ ".1") with
    | false => exact ⟨fsL, by simp [h1], hLrm, hLrn, hLo, hLact⟩
    | true =>
      obtain ⟨c1, hc1⟩ : ∃ c1, fsFind fsL.files (r.filename ++ ".1") = some c1 := by
        rwa [file.IsExist, Option.isSome_iff_exists] at h1
      refine ⟨{ fsL with files := fsErase fsL.files (r.filename ++ ".1") }, ?_, hLrm, hLrn,
        hLo, ?_⟩
      · simp [h1, osRemove, hLrm, hc1]
      · rw [fsFind_erase, if_neg (Ne.symm hne1)]
        exact hLact
  obtain ⟨fsX, hX, hXrm, hXrn, hXo, hXact⟩ := hstep
  have hXex : file.IsExist fsX r.filename = true := by
    rw [file.IsExist, hXact]
    rfl
  have hren : osRename fsX r.filename (r.filename ++ ".1") =
      .ok { fsX with files := fsSet (fsErase fsX.files r.filename) (r.filename ++ ".1") c0 } := by
    simp [osRename, hXrn, hXact]
  have hXo2 : fsX.failOpen = false := hXo.trans ho
  have hYact : fsFind (fsSet (fsErase fsX.files r.filename) (r.filename ++ ".1") c0)
      r.filename = none := by
    simp [fsFind_set, fsFind_erase, Ne.symm hne1]
  refine ⟨{ fsX with files := fsSet (fsSet (fsErase fsX.files r.filename) (r.filename ++ ".1") c0) r.filename [], perms := (r.filename, FILE_PERM) :: fsX.perms }, ?_, ?_, ?_⟩
  · simp only [RotatingFile.doRollover, RotatingFile.close]
    rw [if_pos hbc]
    simp only [hL, hX, hXex, hren, if_true, RotatingFile.openFile, osOpenFile, hXo2,
      Bool.false_eq_true, if_false, hYact]
    simp
  · simp [fsFind_set]
  · simp [fsFind_set, hne1, Ne.symm hne1]

theorem doRollover_zero (r : RotatingFile) (ps : PermState) (fs : FS) (c0 : Content)
    (hbc : r.backupCount ≤ 0) (ho : fs.failOpen = false)
    (hact : fsFind fs.files r.filename = some c0) :
    r.doRollover ps fs = .ok (fs, { r with w := some ⟨false⟩, nbytes := (c0.length : Int) }) := by
  simp only [RotatingFile.doRollover, RotatingFile.close]
  rw [if_neg (by omega : ¬(0 : Int) < r.backupCount)]
  simp only [RotatingFile.openFile, osOpenFile, ho, hact]
  rfl

theorem doRolloverRest_state (t : TimedRotatingFile) (ps : PermState) (fs fs' : FS)
    (clk : Clock) (t' : TimedRotatingFile)
    (h : t.doRolloverRest ps fs clk = .ok (fs', t')) :
    t' = { t.reComputeRollover clk with w := some () } := by
  simp only [TimedRotatingFile.doRolloverRest, TimedRotatingFile.openFile] at h
  split at h
  · exact absurd h (by simp)
  · simp only [Res.ok.injEq, Prod.mk.injEq] at h
    exact h.2.symm

theorem renameStep_state (t : TimedRotatingFile) (ps : PermState) (fs fs' : FS)
    (clk : Clock) (dst : String) (t' : TimedRotatingFile)
    (h : t.renameStep ps fs clk dst = .ok (fs', t')) :
    t' = { t.reComputeRollover clk with w := some () } := by
  simp only [TimedRotatingFile.renameStep] at h
  split at h
  · split at h
    · exact absurd h (by simp)
    · exact doRolloverRest_state t ps _ fs' clk t' h
  · exact doRolloverRest_state t ps fs fs' clk t' h

theorem doRollover_rotatorAt (t : TimedRotatingFile) (ps : PermState) (fs fs' : FS)
    (clk : Clock) (fmtDay : Int → String) (t' : TimedRotatingFile)
    (h : t.doRollover ps fs clk fmtDay = .ok (fs', t')) :
    t'.rotatorAt = clk.unix + (t.interval -
      (((clk.hour * 60 + clk.minute) * 60 + clk.second : Nat) : Int)) := by
  cases hw : t.w with
  | none =>
    simp only [TimedRotatingFile.doRollover, TimedRotatingFile.Close, hw] at h
    exact absurd h (by simp)
  | some u =>
    simp only [TimedRotatingFile.doRollover, TimedRotatingFile.Close, hw] at h
    have := renameStep_state _ ps _ fs' clk _ t' h
    rw [this]
    simp [TimedRotatingFile.reComputeRollover]

theorem doRolloverRest_isOk (t : TimedRotatingFile) (ps : PermState) (fs : FS) (clk : Clock)
    (ho : fs.failOpen = false) : (t.doRolloverRest ps fs clk).isOk = true := by
  simp only [TimedRotatingFile.doRolloverRest, TimedRotatingFile.openFile]
  have hfo : (if 0 < t.backupCount then (t.getFilesToDelete fs).foldl removeIgnore fs
      else fs).failOpen = false := by
    split
    · exact (foldl_removeIgnore_flags _ fs).2.trans ho
    · exact ho
  simp only [osOpenFile, hfo, Bool.false_eq_true, if_false]
  split
  · next e heq => split at heq <;> simp_all
  · simp [Res.isOk]

theorem renameStep_isOk (t : TimedRotatingFile) (ps : PermState) (fs : FS) (clk : Clock)
    (dst : String) (hrn : fs.failRename = []) (ho : fs.failOpen = false) :
    (t.renameStep ps fs clk dst).isOk = true := by
  simp only [TimedRotatingFile.renameStep]
  split
  · next hIsF =>
    obtain ⟨c, hc⟩ : ∃ c, fsFind fs.files t.filename = some c := by
      rwa [file.IsFile, Option.isSome_iff_exists] at hIsF
    have hr : osRename fs t.filename dst =
        .ok { fs with files := fsSet (fsErase fs.files t.filename) dst c } := by
      simp [osRename, hrn, hc]
    simp only [hr]
    exact doRolloverRest_isOk t ps _ clk ho
  · exact doRolloverRest_isOk t ps fs clk ho

theorem doRollover_isOk (t : TimedRotatingFile) (ps : PermState) (fs : FS) (clk : Clock)
    (fmtDay : Int → String) (hw : t.w = some ())
    (hrn : fs.failRename = []) (ho : fs.failOpen = false) :
    (t.doRollover ps fs clk fmtDay).isOk = true := by
  simp only [TimedRotatingFile.doRollover, TimedRotatingFile.Close, hw]
  apply renameStep_isOk
  · split
    · exact ((removeIgnore_flags fs _).2.1).trans hrn
    · exact hrn
  · split
    · exact ((removeIgnore_flags fs _).2.2).trans ho
    · exact ho

theorem write_rotates (r : RotatingFile) (ps : PermState) (fs fs' : FS) (r' : RotatingFile)
    (data : Content) (hw : r.w = some ⟨false⟩)
    (htr : r.maxSize < r.nbytes + (data.length : Int))
    (hdr : r.doRollover ps fs = .ok (fs', r')) (hw' : r'.w = some ⟨false⟩) :
    r.Write ps fs data = .ok (data.length, fsAppend fs' r'.filename data,
      { r' with nbytes := r'.nbytes + (data.length : Int) }) := by
  simp only [RotatingFile.Write, hw, WriteCloser.Closed, Bool.false_eq_true, if_false]
  rw [if_pos htr]
  simp only [hdr, RotatingFile.writeViaHandle, hw', WriteCloser.Write, Bool.false_eq_true,
    if_false]

theorem write_plain (r : RotatingFile) (ps : PermState) (fs : FS) (data : Content)
    (hw : r.w = some ⟨false⟩) (hle : r.nbytes + (data.length : Int) ≤ r.maxSize) :
    r.Write ps fs data = .ok (data.length, fsAppend fs r.filename data,
      { r with nbytes := r.nbytes + (data.length : Int) }) := by
  simp only [RotatingFile.Write, hw, WriteCloser.Closed, Bool.false_eq_true, if_false]
  rw [if_neg (not_lt.mpr hle)]
  simp only [RotatingFile.writeViaHandle, hw, WriteCloser.Write, Bool.false_eq_true, if_false]

/-- C1: the claim says that during a size-based rotation with
`backupCount = N > 0`, every existing `target.i` is renamed to
`target.(i+1)` even when `target.(i+1)` does not exist.  The code
(source lines 284-293) performs the rename only when BOTH exist: run
at a directory holding `log` (content `[5]`) and `log.1` (content
`[7]`) with `backupCount = 3`, the rollover leaves `log.2` absent and
destroys the old `log.1` content, which becomes `[5]`. -/
theorem ladder_rename_skipped_eval :
    fsFind fsC1.files "log.1" = some [7] ∧ fsFind fsC1.files "log.2" = none ∧
    rC1.doRollover startPermState fsC1 =
      .ok (⟨[("log", []), ("log.1", [5])], [("log", 420)], [], [], false, false⟩,
        ⟨some ⟨false⟩, "log", 100, 3, 0⟩) := by
  decide

/-- C2: the claim says that after `M > N` rotations exactly `N`
numbered backups `target.1 .. target.N` exist holding the `N` most
recently rotated contents.  Because the ladder never shifts into a
vacant slot (see C1), the code keeps only `target.1`: after three
rotations with `backupCount = 2`, `log.2` does not exist (and the
second rotated content `[1,1,1,1]` was destroyed), while `log.1`
holds the most recent rotated content. -/
theorem retention_single_backup_eval :
    (sizeRunFs retentionRun).map
      (fun fs => (fsFind fs.files "log", fsFind fs.files "log.1", fsFind fs.files "log.2")) =
      some (some [3, 3, 3, 3], some [2, 2, 2, 2], none) := by
  decide

/-- C3: the claim says `ResetDefaultFilePerm(p)` makes every
subsequent open use permission `p`.  The source's two `open` functions
pass the constant `FILE_PERM` (lines 131 and 311), not the package
variable `filePerm` that `ResetDefaultFilePerm` sets, so after
resetting to `0o600` both writers still create their files with
`0o644`. -/
theorem reset_perm_unused_eval :
    psReset.filePerm = 0o600 ∧
    timedOpenPerms (tC3.openFile psReset fsEmpty) = some [("t.log", 0o644)] ∧
    sizeOpenPerms (rC3.openFile psReset fsEmpty) = some [("r.log", 0o644)] := by
  decide

/-- C4 counterexample: the claim says a directory-listing failure
during time-based pruning and a file-removal failure during time-based
rotation each make `Write` return that error.  With the listing
failing (`fsC4a`) the write still returns success, and with the
removal of the prunable backup `app.2026-01-01` failing (`fsC4b`) the
write also returns success and the file is still there afterwards. -/
theorem prune_failures_swallowed_cex :
    fsC4a.failListDir = true ∧
    (tC4.Write startPermState fsC4a clkC4 fmtC4 [9]).isOk = true ∧
    "app.2026-01-01" ∈ fsC4b.failRemove ∧
    (tC4.Write startPermState fsC4b clkC4 fmtC4 [9]).isOk = true ∧
    (timedRunFs (tC4.Write startPermState fsC4b clkC4 fmtC4 [9])).map
      (fun fs => fsFind fs.files "app.2026-01-01") = some (some [2]) := by
  decide

/-- C4 (amended): open and rename failures inside a timed rotation
propagate to the `Write` caller, but a directory-listing failure
during pruning is swallowed (`getFilesToDelete` returns no candidates,
source lines 169-172) and `os.Remove` failures during rotation are
ignored (source lines 147 and 158): whenever the handle is open, the
deadline has passed, and renames and the reopen succeed, `Write`
returns success regardless of the listing-failure and remove-failure
state of the filesystem. -/
theorem prune_failures_swallowed (t : TimedRotatingFile) (ps : PermState) (fs : FS)
    (clk : Clock) (fmtDay : Int → String) (data : Content)
    (hw : t.w = some ()) (hro : t.shouldRollover clk = true)
    (hrn : fs.failRename = []) (ho : fs.failOpen = false) :
    (t.Write ps fs clk fmtDay data).isOk = true := by
  simp only [TimedRotatingFile.Write, hw, hro, if_true]
  have hdr := doRollover_isOk t ps fs clk fmtDay hw hrn ho
  cases h : t.doRollover ps fs clk fmtDay with
  | ok p =>
    obtain ⟨fs1, t1⟩ := p
    simp [h, Res.isOk]
  | err e => rw [h] at hdr; simp [Res.isOk] at hdr
  | panicked => rw [h] at hdr; simp [Res.isOk] at hdr

/-- C4 witness: a concrete rotation in which the directory listing
fails and the write nevertheless succeeds. -/
theorem prune_failures_swallowed_witness :
    (tC4.Write startPermState fsC4w clkC4 fmtC4 [9]).isOk = true :=
  prune_failures_swallowed tC4 startPermState fsC4w clkC4 fmtC4 [9] (by decide) (by decide)
    (by decide) (by decide)

/-- C5 counterexample: the claim says a size-based rotation with
`backupCount = 0` still retires the active file (renaming it to
`target.1`).  With `backupCount = 0` the whole retire step sits inside
the `backupCount > 0` branch (source lines 280-306), so the rollover
returns the filesystem unchanged: `log` keeps its content `[7]` and
`log.1` keeps its old content `[9]`. -/
theorem rollover_bc0_cex :
    rC5.backupCount = 0 ∧
    rC5.doRollover startPermState fsC5 = .ok (fsC5, ⟨some ⟨false⟩, "log", 100, 0, 1⟩) ∧
    fsFind fsC5.files "log" = some [7] ∧ fsFind fsC5.files "log.1" = some [9] := by
  decide

/-- C5 (amended): for `backupCount = 0` a size-based rotation only
closes and reopens the active file in place: no file is renamed or
deleted, the filesystem is returned unchanged, and the byte counter is
re-read from the file's (unchanged) size; only the pruning/ladder and
the retire-to-`target.1` step are skipped. -/
theorem rollover_bc0_noop (r : RotatingFile) (ps : PermState) (fs : FS) (c : Content)
    (hbc : r.backupCount = 0) (ho : fs.failOpen = false)
    (hact : fsFind fs.files r.filename = some c) :
    r.doRollover ps fs = .ok (fs, { r with w := some ⟨false⟩, nbytes := (c.length : Int) }) :=
  doRollover_zero r ps fs c (by omega) ho hact

/-- C5 witness: the concrete `backupCount = 0` rollover of the
counterexample, recovered from the amended theorem. -/
theorem rollover_bc0_noop_witness :
    rC5.doRollover startPermState fsC5 =
      .ok (fsC5, { rC5 with w := some ⟨false⟩, nbytes := (([7] : Content).length : Int) }) :=
  rollover_bc0_noop rC5 startPermState fsC5 [7] (by decide) (by decide) (by decide)

/-- C6: size-based rotation is triggered exactly when `nbytes +
len(data) > maxBytes`, checked before the write: when the bound is
crossed the writer rotates first and then appends the whole payload to
the freshly opened active file (never splitting it; with `backupCount
> 0` the previous content sits in `target.1` and the fresh file holds
exactly the payload), and when the bound is not crossed no file other
than the active one changes and the payload is appended in place. -/
theorem size_rotation_trigger (ps : PermState) (fs : FS) (r : RotatingFile)
    (data c0 : Content) (hw : r.w = some ⟨false⟩)
    (hrm : fs.failRemove = []) (hrn : fs.failRename = []) (ho : fs.failOpen = false)
    (hact : fsFind fs.files r.filename = some c0) :
    (r.maxSize < r.nbytes + (data.length : Int) →
      ∃ fs1 r1, r.Write ps fs data = .ok (data.length, fs1, r1) ∧
        fsFind fs1.files r.filename =
          some ((if 0 < r.backupCount then ([] : Content) else c0) ++ data) ∧
        r1.nbytes = (if 0 < r.backupCount then 0 else (c0.length : Int)) + (data.length : Int) ∧
        (0 < r.backupCount → fsFind fs1.files (r.filename ++ ".1") = some c0)) ∧
    (r.nbytes + (data.length : Int) ≤ r.maxSize →
      r.Write ps fs data = .ok (data.length, fsAppend fs r.filename data,
        { r with nbytes := r.nbytes + (data.length : Int) }) ∧
      fsFind (fsAppend fs r.filename data).files r.filename = some (c0 ++ data) ∧
      ∀ name, name ≠ r.filename →
        fsFind (fsAppend fs r.filename data).files name = fsFind fs.files name) := by
  have hne1 : r.filename ++ ".1" ≠ r.filename := str_append_ne r.filename ".1" (by decide)
  constructor
  · intro htr
    by_cases hbc : 0 < r.backupCount
    · obtain ⟨fs', hdr, hf0, hf1⟩ := doRollover_pos r ps fs c0 hbc hrm hrn ho hact
      have hwr := write_rotates r ps fs fs' { r with w := some ⟨false⟩, nbytes := 0 }
        data hw htr hdr rfl
      refine ⟨fsAppend fs' r.filename data,
        { r with w := some ⟨false⟩, nbytes := 0 + (data.length : Int) }, hwr, ?_, ?_, ?_⟩
      · simp [fsAppend, hf0, fsFind_set, hbc]
      · simp [hbc]
      · intro _
        simp only [fsAppend, hf0, fsFind_set]
        rw [if_neg hne1]
        exact hf1
    · have hbc0 : r.backupCount ≤ 0 := by omega
      have hdr := doRollover_zero r ps fs c0 hbc0 ho hact
      have hwr := write_rotates r ps fs fs
        { r with w := some ⟨false⟩, nbytes := (c0.length : Int) } data hw htr hdr rfl
      refine ⟨fsAppend fs r.filename data,
        { r with w := some ⟨false⟩, nbytes := (c0.length : Int) + (data.length : Int) },
        hwr, ?_, ?_, ?_⟩
      · simp [fsAppend, hact, fsFind_set, hbc]
      · simp [hbc]
      · intro hbcpos
        exact absurd hbcpos hbc
  · intro hle
    refine ⟨write_plain r ps fs data hw hle, ?_, ?_⟩
    · simp [fsAppend, hact, fsFind_set]
    · intro name hn
      simp only [fsAppend, hact, fsFind_set]
      rw [if_neg hn]

/-- C6 witness: a concrete oversized write (`maxSize = 3`, 2 bytes
already written, 2 more arriving) on a writer with one backup slot. -/
theorem size_rotation_trigger_witness :
    (rW6.maxSize < rW6.nbytes + (([7, 7] : Content).length : Int) →
      ∃ fs1 r1, rW6.Write startPermState fsW6 [7, 7] =
          .ok (([7, 7] : Content).length, fs1, r1) ∧
        fsFind fs1.files rW6.filename =
          some ((if 0 < rW6.backupCount then ([] : Content) else [9, 9]) ++ [7, 7]) ∧
        r1.nbytes = (if 0 < rW6.backupCount then 0 else (([9, 9] : Content).length : Int)) +
          (([7, 7] : Content).length : Int) ∧
        (0 < rW6.backupCount → fsFind fs1.files (rW6.filename ++ ".1") = some [9, 9])) ∧
    (rW6.nbytes + (([7, 7] : Content).length : Int) ≤ rW6.maxSize →
      rW6.Write startPermState fsW6 [7, 7] =
        .ok (([7, 7] : Content).length, fsAppend fsW6 rW6.filename [7, 7],
          { rW6 with nbytes := rW6.nbytes + (([7, 7] : Content).length : Int) }) ∧
      fsFind (fsAppend fsW6 rW6.filename [7, 7]).files rW6.filename = some ([9, 9] ++ [7, 7]) ∧
      ∀ name, name ≠ rW6.filename →
        fsFind (fsAppend fsW6 rW6.filename [7, 7]).files name = fsFind fsW6.files name) :=
  size_rotation_trigger startPermState fsW6 rW6 [7, 7] [9, 9] (by decide) (by decide)
    (by decide) (by decide) (by decide)

/-- C7: after a successful `Close` on either writer, every subsequent
`Write` performs no filesystem action and returns `ErrFileNotOpen`:
the timed writer's handle is nil and its `Write` rejects at source
lines 89-92; the size-based writer's handle is nil and its `Write`
rejects at source lines 239-242.  In the embedding the error return
carries no filesystem, and the receiver is unchanged by an erroring
call, so every later call rejects the same way. -/
theorem write_after_close_not_open (t t' : TimedRotatingFile) (r : RotatingFile)
    (ps : PermState) (fs fs' : FS) (clk : Clock) (fmtDay : Int → String)
    (data data' : Content) (hc : t.Close = .ok t') :
    t'.Write ps fs clk fmtDay data = .err .notOpen ∧
    (r.Close).Write ps fs' data' = .err .notOpen := by
  constructor
  · have hw : t'.w = none := by
      cases hw0 : t.w with
      | none =>
        simp only [TimedRotatingFile.Close, hw0] at hc
        exact absurd hc (by simp)
      | some u =>
        simp only [TimedRotatingFile.Close, hw0, Res.ok.injEq] at hc
        rw [← hc]
    simp [TimedRotatingFile.Write, hw]
  · simp [RotatingFile.Close, RotatingFile.close, RotatingFile.Write]

/-- C7 witness: a concrete close of each writer followed by a write. -/
theorem write_after_close_not_open_witness :
    (⟨none, "w.log", 31, day, 0⟩ : TimedRotatingFile).Write startPermState fsEmpty
      ⟨0, 0, 0, 0⟩ (fun _ => "d") [1] = .err .notOpen ∧
    ((⟨some ⟨false⟩, "w.log", 5, 1, 0⟩ : RotatingFile).Close).Write startPermState fsEmpty
      [2] = .err .notOpen :=
  write_after_close_not_open ⟨some (), "w.log", 31, day, 0⟩ ⟨none, "w.log", 31, day, 0⟩
    ⟨some ⟨false⟩, "w.log", 5, 1, 0⟩ startPermState fsEmpty fsEmpty ⟨0, 0, 0, 0⟩
    (fun _ => "d") [1] [2] (by decide)

/-- C8: the claim says `WriteString(s)` behaves exactly like `Write`
on the bytes of `s` for both writers.  The size-based `WriteString`
(source line 259) calls `r.w.Write` directly: with 8 of 10 bytes used
and a 5-byte payload, `Write` rotates (leaving the old content in
`log.1` and exactly the payload in `log`) while `WriteString` appends
in place without rotating, without updating `nbytes` (it returns no
writer state), and after `Close` it dereferences the nil handle and
panics where `Write` returns `ErrFileNotOpen`. -/
theorem writeString_bypasses_write_eval :
    rC8.WriteString startPermState fsC8 d5 = .ok (5, fsAppend fsC8 "log" d5) ∧
    fsFind (fsAppend fsC8 "log" d5).files "log" = some [0, 0, 0, 0, 0, 0, 0, 0, 1, 2, 3, 4, 5] ∧
    fsFind (fsAppend fsC8 "log" d5).files "log.1" = none ∧
    (sizeRunFs (rC8.Write startPermState fsC8 d5)).map
      (fun fs => (fsFind fs.files "log", fsFind fs.files "log.1")) =
      some (some d5, some [0, 0, 0, 0, 0, 0, 0, 0]) ∧
    (rC8.Close).WriteString startPermState fsC8 d5 = .panicked ∧
    (rC8.Close).Write startPermState fsC8 d5 = .err .notOpen := by
  decide

/-- C9: for a timed writer with interval `k` days (`k ≥ 1`), a
rotation that runs at a wall-clock instant past the deadline recomputes
`rotatorAt` to `now + interval - secondsSinceLocalMidnight(now)`, and
that value is strictly greater than the previous deadline, at whatever
time the rotation actually ran. -/
theorem timed_deadline_monotone (t : TimedRotatingFile) (ps : PermState) (fs fs' : FS)
    (clk : Clock) (fmtDay : Int → String) (t' : TimedRotatingFile) (k : Int)
    (hk : 1 ≤ k) (hint : t.interval = k * day)
    (hh : clk.hour ≤ 23) (hm : clk.minute ≤ 59) (hs : clk.second ≤ 59)
    (hro : t.shouldRollover clk = true)
    (hdr : t.doRollover ps fs clk fmtDay = .ok (fs', t')) :
    t'.rotatorAt = clk.unix + (t.interval -
      (((clk.hour * 60 + clk.minute) * 60 + clk.second : Nat) : Int)) ∧
    t.rotatorAt < t'.rotatorAt := by
  have heq := doRollover_rotatorAt t ps fs fs' clk fmtDay t' hdr
  refine ⟨heq, ?_⟩
  have hle : t.rotatorAt ≤ clk.unix := by
    simpa [TimedRotatingFile.shouldRollover, decide_eq_true_eq] using hro
  have hsm : ((clk.hour * 60 + clk.minute) * 60 + clk.second : Nat) ≤ 86399 := by
    have h1 : clk.hour * 60 + clk.minute ≤ 1439 := by omega
    omega
  have hday : (86400 : Int) ≤ t.interval := by
    rw [hint]
    have h2 : (1 : Int) * day ≤ k * day := by
      apply mul_le_mul_of_nonneg_right hk
      norm_num [day]
    simpa [day] using h2
  omega

/-- C9 witness: a one-day-interval rotation run 30 seconds after local
midnight, 50 seconds past its deadline. -/
theorem timed_deadline_monotone_witness :
    (⟨some (), "w.log", 31, day, 86470⟩ : TimedRotatingFile).rotatorAt =
      (100 : Int) + (day - (((0 * 60 + 0) * 60 + 30 : Nat) : Int)) ∧
    (⟨some (), "w.log", 31, day, 100⟩ : TimedRotatingFile).rotatorAt <
      (⟨some (), "w.log", 31, day, 86470⟩ : TimedRotatingFile).rotatorAt :=
  timed_deadline_monotone ⟨some (), "w.log", 31, day, 100⟩ startPermState fsEmpty
    ⟨[("w.log", [])], [("w.log", 420)], [], [], false, false⟩ ⟨100, 0, 0, 30⟩
    (fun _ => "d") ⟨some (), "w.log", 31, day, 86470⟩ 1 (by decide) (by decide) (by decide)
    (by decide) (by decide) (by decide) (by decide)

/-- C10: calling `Close` on a timed writer whose handle is already
absent — here, a second `Close` right after a successful one — runs
`t.w.Close()` on a nil handle (source line 123), a nil dereference
that panics instead of returning an error value. -/
theorem timed_double_close_panics (t t' : TimedRotatingFile) (hc : t.Close = .ok t') :
    t'.Close = .panicked := by
  cases hw0 : t.w with
  | none =>
    simp only [TimedRotatingFile.Close, hw0] at hc
    exact absurd hc (by simp)
  | some u =>
    simp only [TimedRotatingFile.Close, hw0, Res.ok.injEq] at hc
    rw [← hc]
    rfl

/-- C10 witness: a concrete double close. -/
theorem timed_double_close_panics_witness :
    (⟨none, "w.log", 31, day, 0⟩ : TimedRotatingFile).Close = .panicked :=
  timed_double_close_panics ⟨some (), "w.log", 31, day, 0⟩ ⟨none, "w.log", 31, day, 0⟩
    (by decide)

end handler

